import Mathlib

/-!
Verification of the stacklet/mcp-server polling, result-reshaping and
argument-coercion core against its natural-language specification.

The Python sources are shallowly embedded:

* JSON values (the Python object domain handled by `json.loads` / `json.dumps`
  and by the tool argument shim) are the inductive `Json` below, together with
  an executable printer (`dumps`) and parser (`loads`) that model the Python
  `json` standard library on the canonical format `json.dumps` emits
  (", " / ": " separators, integer numbers, quote and backslash escapes).
* The asset-DB job poller `AssetDBClient._poll_job` (redash.py) becomes
  `pollJob`: the sequence of HTTP job fetches is passed in as a list, the
  monotonic clock advances exactly by the amount slept (fetches themselves are
  modelled as instantaneous, as in the repository's own test harness), and the
  trace records every sleep and fetch.
* `_maybe_load_json` / `_json_guard` (utils/json.py) become `maybeLoadJson` /
  `jsonGuardAnnot` over `Json` arguments.
* `PlatformClient.query` (platform/graphql.py) becomes `clientQuery` over an
  abstract HTTP response (status code plus body text).
* `_tool_query_result` and `_execute_results` (assetdb/tools.py, redash.py)
  become `toolQueryResult` / `executeResults` over parsed `QueryResultM`
  values; file persistence is modelled as the produced file name and content.
* The best-effort dataset-export poller and the GraphQL mutation gate are
  modelled from the specification, because the current `wait_for_export` /
  `has_mutations` implementations are absent from the source snapshot (only
  their callers and tests are present); their definitions carry a
  `Modelled from the spec:` doc comment.
-/

/-- JSON values: the domain of Python objects exchanged by `json.loads` and
`json.dumps` (Python `None` is `Json.null`, dicts keep insertion order). -/
inductive Json where
  | null : Json
  | bool (b : Bool) : Json
  | num (n : Int) : Json
  | str (s : String) : Json
  | arr (xs : List Json) : Json
  | obj (kvs : List (String × Json)) : Json

mutual

def beqJson : Json → Json → Bool
  | .null, .null => true
  | .bool a, .bool b => a == b
  | .num a, .num b => a == b
  | .str a, .str b => a == b
  | .arr xs, .arr ys => beqList xs ys
  | .obj xs, .obj ys => beqFields xs ys
  | _, _ => false

def beqList : List Json → List Json → Bool
  | [], [] => true
  | x :: xs, y :: ys => beqJson x y && beqList xs ys
  | _, _ => false

def beqFields : List (String × Json) → List (String × Json) → Bool
  | [], [] => true
  | (k, v) :: xs, (l, w) :: ys => k == l && beqJson v w && beqFields xs ys
  | _, _ => false

end

mutual

theorem beqJson_iff : ∀ a b : Json, beqJson a b = true ↔ a = b
  | .null, .null => by simp [beqJson]
  | .bool _, .bool _ => by simp [beqJson]
  | .num _, .num _ => by simp [beqJson]
  | .str _, .str _ => by simp [beqJson]
  | .arr xs, .arr ys => by simp [beqJson, beqList_iff xs ys]
  | .obj xs, .obj ys => by simp [beqJson, beqFields_iff xs ys]
  | .null, .bool _ => by simp [beqJson]
  | .null, .num _ => by simp [beqJson]
  | .null, .str _ => by simp [beqJson]
  | .null, .arr _ => by simp [beqJson]
  | .null, .obj _ => by simp [beqJson]
  | .bool _, .null => by simp [beqJson]
  | .bool _, .num _ => by simp [beqJson]
  | .bool _, .str _ => by simp [beqJson]
  | .bool _, .arr _ => by simp [beqJson]
  | .bool _, .obj _ => by simp [beqJson]
  | .num _, .null => by simp [beqJson]
  | .num _, .bool _ => by simp [beqJson]
  | .num _, .str _ => by simp [beqJson]
  | .num _, .arr _ => by simp [beqJson]
  | .num _, .obj _ => by simp [beqJson]
  | .str _, .null => by simp [beqJson]
  | .str _, .bool _ => by simp [beqJson]
  | .str _, .num _ => by simp [beqJson]
  | .str _, .arr _ => by simp [beqJson]
  | .str _, .obj _ => by simp [beqJson]
  | .arr _, .null => by simp [beqJson]
  | .arr _, .bool _ => by simp [beqJson]
  | .arr _, .num _ => by simp [beqJson]
  | .arr _, .str _ => by simp [beqJson]
  | .arr _, .obj _ => by simp [beqJson]
  | .obj _, .null => by simp [beqJson]
  | .obj _, .bool _ => by simp [beqJson]
  | .obj _, .num _ => by simp [beqJson]
  | .obj _, .str _ => by simp [beqJson]
  | .obj _, .arr _ => by simp [beqJson]

theorem beqList_iff : ∀ xs ys : List Json, beqList xs ys = true ↔ xs = ys
  | [], [] => by simp [beqList]
  | x :: xs, y :: ys => by simp [beqList, beqJson_iff x y, beqList_iff xs ys]
  | [], _ :: _ => by simp [beqList]
  | _ :: _, [] => by simp [beqList]

theorem beqFields_iff : ∀ xs ys : List (String × Json), beqFields xs ys = true ↔ xs = ys
  | [], [] => by simp [beqFields]
  | (_, v) :: xs, (_, w) :: ys => by simp [beqFields, beqJson_iff v w, beqFields_iff xs ys]
  | [], _ :: _ => by simp [beqFields]
  | _ :: _, [] => by simp [beqFields]

end

instance : DecidableEq Json := fun a b => decidable_of_iff _ (beqJson_iff a b)

/-- Decimal digit character for a value below ten, as emitted by Python's
integer formatting. -/
def digitChar (d : Nat) : Char := Char.ofNat (48 + d)

/-- Decimal digits of a natural number, most significant first; the fuel
argument makes the recursion structural (any fuel above the number works). -/
def natCharsCore : Nat → Nat → List Char → List Char
  | 0, _, acc => acc
  | fuel + 1, n, acc =>
      if n < 10 then digitChar n :: acc
      else natCharsCore fuel (n / 10) (digitChar (n % 10) :: acc)

def natChars (n : Nat) : List Char := natCharsCore (n + 1) n []

/-- Decimal rendering of an integer exactly as Python's `json.dumps` prints
it: an optional minus sign followed by the digits. -/
def intChars (n : Int) : List Char :=
  if n < 0 then '-' :: natChars n.natAbs else natChars n.natAbs

/-- String-body escaping as performed by `json.dumps` for the characters it
must escape: the quote and the backslash. -/
def escapeChars : List Char → List Char
  | [] => []
  | c :: rest =>
      if c = '"' ∨ c = '\\' then '\\' :: c :: escapeChars rest
      else c :: escapeChars rest

mutual

/-- Canonical serialization of a JSON value, modelling `json.dumps` with its
default separators (", " between items, ": " after keys). -/
def printJson : Json → List Char
  | .null => 'n' :: 'u' :: 'l' :: 'l' :: []
  | .bool true => 't' :: 'r' :: 'u' :: 'e' :: []
  | .bool false => 'f' :: 'a' :: 'l' :: 's' :: 'e' :: []
  | .num n => intChars n
  | .str s => '"' :: (escapeChars s.data ++ ['"'])
  | .arr xs => '[' :: (printElems xs ++ [']'])
  | .obj kvs => '{' :: (printFields kvs ++ ['}'])

def printElems : List Json → List Char
  | [] => []
  | [x] => printJson x
  | x :: y :: rest => printJson x ++ ',' :: ' ' :: printElems (y :: rest)

def printFields : List (String × Json) → List Char
  | [] => []
  | [(k, v)] => '"' :: escapeChars k.data ++ '"' :: ':' :: ' ' :: printJson v
  | (k, v) :: y :: rest =>
      '"' :: escapeChars k.data ++ '"' :: ':' :: ' ' :: printJson v
        ++ ',' :: ' ' :: printFields (y :: rest)

end

/-- Whether a character is a decimal digit (ASCII 0-9). -/
def isDigitChar (c : Char) : Bool := decide ('0' ≤ c ∧ c ≤ '9')

def digitVal (c : Char) : Nat := c.toNat - 48

/-- Greedily consume decimal digits, accumulating their value. -/
def readDigits (acc : Nat) : List Char → Nat × List Char
  | [] => (acc, [])
  | c :: rest =>
      if isDigitChar c then readDigits (acc * 10 + digitVal c) rest
      else (acc, c :: rest)

/-- Read a JSON string body up to its closing quote, undoing the escapes the
printer introduces. -/
def readStrBody : List Char → Option (List Char × List Char)
  | [] => none
  | c :: rest =>
      if c = '"' then some ([], rest)
      else if c = '\\' then
        match rest with
        | [] => none
        | d :: rest2 => (readStrBody rest2).map fun p => (d :: p.1, p.2)
      else (readStrBody rest).map fun p => (c :: p.1, p.2)

/-- Consume an expected literal character sequence. -/
def dropLit : List Char → List Char → Option (List Char)
  | [], cs => some cs
  | l :: ls, c :: cs => if c = l then dropLit ls cs else none
  | _ :: _, [] => none

mutual

/-- Recursive-descent reader for one JSON value, modelling `json.loads` on the
canonical format the printer emits; the fuel makes the recursion structural. -/
def parseVal : Nat → List Char → Option (Json × List Char)
  | 0, _ => none
  | _ + 1, [] => none
  | fuel + 1, c :: rest =>
      if c = 'n' then (dropLit ('u' :: 'l' :: 'l' :: []) rest).map fun r => (.null, r)
      else if c = 't' then (dropLit ('r' :: 'u' :: 'e' :: []) rest).map fun r => (.bool true, r)
      else if c = 'f' then
        (dropLit ('a' :: 'l' :: 's' :: 'e' :: []) rest).map fun r => (.bool false, r)
      else if c = '"' then (readStrBody rest).map fun p => (.str ⟨p.1⟩, p.2)
      else if c = '-' then
        match rest with
        | [] => none
        | d :: rest2 =>
            if isDigitChar d then
              let p := readDigits (digitVal d) rest2
              some (.num (-(p.1 : Int)), p.2)
            else none
      else if c = '[' then
        if rest.head? = some ']' then some (.arr [], rest.tail)
        else (parseElems fuel rest).map fun p => (.arr p.1, p.2)
      else if c = '{' then
        if rest.head? = some '}' then some (.obj [], rest.tail)
        else (parseFields fuel rest).map fun p => (.obj p.1, p.2)
      else if isDigitChar c then
        let p := readDigits (digitVal c) rest
        some (.num (p.1 : Int), p.2)
      else none

def parseElems : Nat → List Char → Option (List Json × List Char)
  | 0, _ => none
  | fuel + 1, cs =>
      (parseVal fuel cs).bind fun p =>
        match p.2 with
        | ',' :: ' ' :: rest => (parseElems fuel rest).map fun q => (p.1 :: q.1, q.2)
        | ']' :: rest => some ([p.1], rest)
        | _ => none

def parseFields : Nat → List Char → Option (List (String × Json) × List Char)
  | 0, _ => none
  | fuel + 1, cs =>
      match cs with
      | '"' :: cs2 =>
          (readStrBody cs2).bind fun k =>
            match k.2 with
            | ':' :: ' ' :: rest =>
                (parseVal fuel rest).bind fun p =>
                  match p.2 with
                  | ',' :: ' ' :: rest2 =>
                      (parseFields fuel rest2).map fun q => ((⟨k.1⟩, p.1) :: q.1, q.2)
                  | '}' :: rest2 => some ([(⟨k.1⟩, p.1)], rest2)
                  | _ => none
            | _ => none
      | _ => none

end

/-- Model of Python's `json.dumps` on the value domain. -/
def dumps (j : Json) : String := ⟨printJson j⟩

/-- Model of Python's `json.loads`: the whole input must be one JSON value. -/
def loads (s : String) : Option Json :=
  match parseVal (s.data.length + 1) s.data with
  | some (j, []) => some j
  | _ => none

/-! ### Correctness of the JSON reader on printed output -/

def valOf (a : Nat) (ds : List Char) : Nat :=
  ds.foldl (fun x c => x * 10 + digitVal c) a

theorem valOf_nil (a : Nat) : valOf a [] = a := rfl

theorem valOf_cons (a : Nat) (c : Char) (ds : List Char) :
    valOf a (c :: ds) = valOf (a * 10 + digitVal c) ds := rfl

theorem valOf_append (a : Nat) (ds es : List Char) :
    valOf a (ds ++ es) = valOf (valOf a ds) es := by
  simp [valOf, List.foldl_append]

theorem digitChar_isDigit {d : Nat} (h : d < 10) : isDigitChar (digitChar d) = true := by
  interval_cases d <;> decide

theorem digitVal_digitChar {d : Nat} (h : d < 10) : digitVal (digitChar d) = d := by
  interval_cases d <;> decide

theorem natCharsCore_acc :
    ∀ (fuel n : Nat) (acc : List Char),
      natCharsCore fuel n acc = natCharsCore fuel n [] ++ acc := by
  intro fuel
  induction fuel with
  | zero => intro n acc; simp [natCharsCore]
  | succ f ih =>
      intro n acc
      by_cases h10 : n < 10
      · simp [natCharsCore, h10]
      · rw [natCharsCore, if_neg h10, natCharsCore, if_neg h10]
        rw [ih (n / 10) (digitChar (n % 10) :: acc), ih (n / 10) [digitChar (n % 10)]]
        simp

theorem natCharsCore_eq (n : Nat) :
    ∀ f g acc, n < f → n < g → natCharsCore f n acc = natCharsCore g n acc := by
  induction n using Nat.strong_induction_on with
  | _ n ih =>
      intro f g acc hf hg
      match f, g with
      | f + 1, g + 1 =>
        by_cases h10 : n < 10
        · simp [natCharsCore, h10]
        · rw [natCharsCore, if_neg h10, natCharsCore, if_neg h10]
          exact ih (n / 10) (Nat.div_lt_self (by omega) (by omega)) f g _
            (by omega) (by omega)

theorem natChars_step {n : Nat} (h : 10 ≤ n) :
    natChars n = natChars (n / 10) ++ [digitChar (n % 10)] := by
  have h1 : natChars n = natCharsCore n (n / 10) (digitChar (n % 10) :: []) := by
    rw [natChars, natCharsCore, if_neg (by omega)]
  rw [h1, natCharsCore_acc, natChars]
  rw [natCharsCore_eq (n / 10) n (n / 10 + 1) [] (by omega) (by omega)]

theorem natChars_lt_ten {n : Nat} (h : n < 10) : natChars n = [digitChar n] := by
  rw [natChars, natCharsCore, if_pos h]

theorem natChars_digits (n : Nat) : ∀ c ∈ natChars n, isDigitChar c = true := by
  induction n using Nat.strong_induction_on with
  | _ n ih =>
      by_cases h10 : n < 10
      · rw [natChars_lt_ten h10]
        intro c hc
        simp at hc
        subst hc
        exact digitChar_isDigit (by omega)
      · rw [natChars_step (by omega)]
        intro c hc
        rcases List.mem_append.mp hc with h | h
        · exact ih (n / 10) (Nat.div_lt_self (by omega) (by omega)) c h
        · simp at h
          subst h
          exact digitChar_isDigit (Nat.mod_lt _ (by omega))

theorem natChars_ne_nil (n : Nat) : natChars n ≠ [] := by
  by_cases h10 : n < 10
  · rw [natChars_lt_ten h10]; simp
  · rw [natChars_step (by omega)]; simp

theorem valOf_natChars (n : Nat) :
    ∀ a, valOf a (natChars n) = a * 10 ^ (natChars n).length + n := by
  induction n using Nat.strong_induction_on with
  | _ n ih =>
      intro a
      by_cases h10 : n < 10
      · rw [natChars_lt_ten h10]
        rw [valOf_cons, valOf_nil, digitVal_digitChar h10]
        simp
      · rw [natChars_step (by omega), valOf_append, valOf_cons, valOf_nil,
          ih (n / 10) (Nat.div_lt_self (by omega) (by omega)) a]
        have hlen : (natChars (n / 10) ++ [digitChar (n % 10)]).length
            = (natChars (n / 10)).length + 1 := by simp
        rw [hlen, digitVal_digitChar (Nat.mod_lt _ (by omega))]
        have : a * 10 ^ ((natChars (n / 10)).length + 1)
            = a * 10 ^ (natChars (n / 10)).length * 10 := by ring
        rw [this]
        omega

/-- Heads that make the greedy digit reader stop: the continuation after a
printed number never begins with a digit. -/
def noDigitHead (cs : List Char) : Prop :=
  ∀ c, cs.head? = some c → isDigitChar c = false

theorem noDigitHead_nil : noDigitHead [] := by intro c h; simp at h

theorem noDigitHead_cons {c : Char} {cs : List Char} (h : isDigitChar c = false) :
    noDigitHead (c :: cs) := by
  intro d hd
  simp at hd
  rwa [← hd]

theorem readDigits_stop :
    ∀ (ds : List Char) (a : Nat) (rest : List Char),
      (∀ c ∈ ds, isDigitChar c = true) → noDigitHead rest →
      readDigits a (ds ++ rest) = (valOf a ds, rest) := by
  intro ds
  induction ds with
  | nil =>
      intro a rest _ hrest
      match rest with
      | [] => rfl
      | c :: rest2 =>
          have hc : isDigitChar c = false := hrest c rfl
          simp [readDigits, hc, valOf_nil]
  | cons c ds ih =>
      intro a rest hds hrest
      have hc : isDigitChar c = true := hds c (by simp)
      simp only [List.cons_append, readDigits, hc, if_pos]
      rw [show ds.append rest = ds ++ rest from rfl,
        ih (a * 10 + digitVal c) rest (fun d hd => hds d (by simp [hd])) hrest]
      rfl

theorem readStrBody_quote (rest : List Char) :
    readStrBody ('"' :: rest) = some ([], rest) := by
  rw [readStrBody.eq_def]
  norm_num

theorem readStrBody_esc (d : Char) (rest : List Char) :
    readStrBody ('\\' :: d :: rest) = (readStrBody rest).map fun p => (d :: p.1, p.2) := by
  rw [readStrBody.eq_def]
  have h : ¬ (('\\' : Char) = '"') := by decide
  simp [h]

theorem readStrBody_other {c : Char} (h1 : c ≠ '"') (h2 : c ≠ '\\') (rest : List Char) :
    readStrBody (c :: rest) = (readStrBody rest).map fun p => (c :: p.1, p.2) := by
  rw [readStrBody.eq_def]
  simp [h1, h2]

theorem readStrBody_escape :
    ∀ (s rest : List Char),
      readStrBody (escapeChars s ++ '"' :: rest) = some (s, rest) := by
  intro s
  induction s with
  | nil =>
      intro rest
      rw [escapeChars, List.nil_append, readStrBody_quote]
  | cons c s ih =>
      intro rest
      by_cases hc : c = '"' ∨ c = '\\'
      · rw [escapeChars, if_pos hc]
        rw [List.cons_append, List.cons_append, readStrBody_esc, ih rest]
        rfl
      · push_neg at hc
        rw [escapeChars, if_neg (by tauto)]
        rw [List.cons_append, readStrBody_other hc.1 hc.2, ih rest]
        rfl

theorem dropLit_self :
    ∀ (ls cs : List Char), dropLit ls (ls ++ cs) = some cs := by
  intro ls
  induction ls with
  | nil => intro cs; rfl
  | cons l ls ih => intro cs; simp [dropLit, ih cs]

mutual

/-- Fuel sufficient for the reader on the printed form of a value. -/
def fvJson : Json → Nat
  | .null => 1
  | .bool _ => 1
  | .num _ => 1
  | .str _ => 1
  | .arr xs => 1 + feList xs
  | .obj kvs => 1 + ffFields kvs

def feList : List Json → Nat
  | [] => 0
  | x :: xs => 1 + fvJson x + feList xs

def ffFields : List (String × Json) → Nat
  | [] => 0
  | (_, v) :: kvs => 1 + fvJson v + ffFields kvs

end

theorem isDigit_ne {c d : Char} (h : isDigitChar c = true) (hd : isDigitChar d = false) :
    c ≠ d := by
  intro e
  rw [e, hd] at h
  cases h

theorem valOf_zero_natChars (m : Nat) : valOf 0 (natChars m) = m := by
  rw [valOf_natChars]
  simp

theorem parseVal_num_nonneg (m : Nat) (f : Nat) (rest : List Char) (hrest : noDigitHead rest) :
    parseVal (f + 1) (natChars m ++ rest) = some (.num (m : Int), rest) := by
  obtain ⟨c, cs, hcs⟩ := List.exists_cons_of_ne_nil (natChars_ne_nil m)
  have hdig : isDigitChar c = true := by
    apply natChars_digits m
    rw [hcs]; simp
  rw [hcs, List.cons_append, parseVal.eq_def]
  have h1 : c ≠ 'n' := isDigit_ne hdig (by decide)
  have h2 : c ≠ 't' := isDigit_ne hdig (by decide)
  have h3 : c ≠ 'f' := isDigit_ne hdig (by decide)
  have h4 : c ≠ '"' := isDigit_ne hdig (by decide)
  have h5 : c ≠ '-' := isDigit_ne hdig (by decide)
  have h6 : c ≠ '[' := isDigit_ne hdig (by decide)
  have h7 : c ≠ '{' := isDigit_ne hdig (by decide)
  simp only [h1, h2, h3, h4, h5, h6, h7, hdig, if_false, if_true, ite_false, ite_true,
    if_neg, if_pos]
  rw [readDigits_stop cs (digitVal c) rest
    (fun d hd => natChars_digits m d (by rw [hcs]; simp [hd])) hrest]
  have : valOf (digitVal c) cs = m := by
    have h0 : valOf 0 (c :: cs) = valOf (digitVal c) cs := by
      rw [valOf_cons]; norm_num
    rw [← h0, ← hcs, valOf_zero_natChars]
  rw [this]

theorem parseVal_num_neg (m : Nat) (f : Nat) (rest : List Char) (hrest : noDigitHead rest) :
    parseVal (f + 1) ('-' :: natChars m ++ rest) = some (.num (-(m : Int)), rest) := by
  obtain ⟨c, cs, hcs⟩ := List.exists_cons_of_ne_nil (natChars_ne_nil m)
  have hdig : isDigitChar c = true := by
    apply natChars_digits m
    rw [hcs]; simp
  rw [List.cons_append, hcs, List.cons_append, parseVal.eq_def]
  norm_num
  rw [if_pos hdig]
  rw [readDigits_stop cs (digitVal c) rest
    (fun d hd => natChars_digits m d (by rw [hcs]; simp [hd])) hrest]
  have : valOf (digitVal c) cs = m := by
    have h0 : valOf 0 (c :: cs) = valOf (digitVal c) cs := by
      rw [valOf_cons]; norm_num
    rw [← h0, ← hcs, valOf_zero_natChars]
  rw [this]
  simp

theorem printJson_head (j : Json) :
    ∃ c cs, printJson j = c :: cs ∧ c ≠ ']' ∧ c ≠ '}' := by
  cases j with
  | null => exact ⟨'n', _, rfl, by decide, by decide⟩
  | bool b => cases b with
      | true => exact ⟨'t', _, rfl, by decide, by decide⟩
      | false => exact ⟨'f', _, rfl, by decide, by decide⟩
  | num n =>
      by_cases hn : n < 0
      · exact ⟨'-', _, by rw [printJson, intChars, if_pos hn], by decide, by decide⟩
      · obtain ⟨c, cs, hcs⟩ := List.exists_cons_of_ne_nil (natChars_ne_nil n.natAbs)
        have hdig : isDigitChar c = true := by
          apply natChars_digits n.natAbs
          rw [hcs]; simp
        exact ⟨c, cs, by rw [printJson, intChars, if_neg hn, hcs],
          isDigit_ne hdig (by decide), isDigit_ne hdig (by decide)⟩
  | str s => exact ⟨'"', _, rfl, by decide, by decide⟩
  | arr xs => exact ⟨'[', _, rfl, by decide, by decide⟩
  | obj kvs => exact ⟨'{', _, rfl, by decide, by decide⟩

theorem printElems_cons_decomp (x : Json) (xs : List Json) :
    ∃ t, printElems (x :: xs) = printJson x ++ t := by
  cases xs with
  | nil => exact ⟨[], by rw [printElems]; simp⟩
  | cons y ys => exact ⟨',' :: ' ' :: printElems (y :: ys), by rw [printElems]⟩

theorem printFields_cons_head (k : String) (v : Json) (kvs : List (String × Json)) :
    ∃ t, printFields ((k, v) :: kvs) = '"' :: t := by
  cases kvs with
  | nil =>
      exact ⟨escapeChars k.data ++ '"' :: ':' :: ' ' :: printJson v, by rw [printFields]; simp⟩
  | cons y ys =>
      refine ⟨escapeChars k.data ++ '"' :: ':' :: ' ' :: printJson v
        ++ ',' :: ' ' :: printFields (y :: ys), ?_⟩
      rw [printFields]
      simp

mutual

theorem parseVal_print : ∀ (j : Json) (fuel : Nat) (rest : List Char),
    fvJson j ≤ fuel → noDigitHead rest →
    parseVal fuel (printJson j ++ rest) = some (j, rest)
  | .null, fuel, rest => by
      intro hf hr
      cases fuel with
      | zero => simp [fvJson] at hf
      | succ f =>
          rw [printJson, parseVal.eq_def]
          simp [dropLit]
  | .bool true, fuel, rest => by
      intro hf hr
      cases fuel with
      | zero => simp [fvJson] at hf
      | succ f =>
          rw [printJson, parseVal.eq_def]
          simp [dropLit]
  | .bool false, fuel, rest => by
      intro hf hr
      cases fuel with
      | zero => simp [fvJson] at hf
      | succ f =>
          rw [printJson, parseVal.eq_def]
          simp [dropLit]
  | .num n, fuel, rest => by
      intro hf hr
      cases fuel with
      | zero => simp [fvJson] at hf
      | succ f =>
          rw [printJson, intChars]
          by_cases hn : n < 0
          · rw [if_pos hn, parseVal_num_neg n.natAbs f rest hr,
              show (-(n.natAbs : Int)) = n by omega]
          · rw [if_neg hn, parseVal_num_nonneg n.natAbs f rest hr,
              show ((n.natAbs : Int)) = n by omega]
  | .str s, fuel, rest => by
      intro hf hr
      cases fuel with
      | zero => simp [fvJson] at hf
      | succ f =>
          rw [printJson, parseVal.eq_def]
          norm_num
          simp [readStrBody_escape]
  | .arr xs, fuel, rest => by
      intro hf hr
      cases fuel with
      | zero => simp [fvJson] at hf
      | succ f =>
          cases xs with
          | nil =>
              rw [printJson, printElems, parseVal.eq_def]
              simp
          | cons x xs =>
              have hfe : feList (x :: xs) ≤ f := by
                rw [fvJson] at hf
                omega
              obtain ⟨c, cs, hc, hc1, hc2⟩ := printJson_head x
              obtain ⟨t, ht⟩ := printElems_cons_decomp x xs
              rw [printJson, parseVal.eq_def]
              norm_num
              rw [parseElems_print (x :: xs) f rest hfe (by simp)]
              simp [ht, hc, hc1]
  | .obj kvs, fuel, rest => by
      intro hf hr
      cases fuel with
      | zero => simp [fvJson] at hf
      | succ f =>
          cases kvs with
          | nil =>
              rw [printJson, printFields, parseVal.eq_def]
              simp
          | cons kv kvs =>
              obtain ⟨k, v⟩ := kv
              have hfe : ffFields ((k, v) :: kvs) ≤ f := by
                rw [fvJson] at hf
                omega
              obtain ⟨t, ht⟩ := printFields_cons_head k v kvs
              rw [printJson, parseVal.eq_def]
              norm_num
              rw [parseFields_print ((k, v) :: kvs) f rest hfe (by simp)]
              simp [ht]

theorem parseElems_print : ∀ (xs : List Json) (fuel : Nat) (rest : List Char),
    feList xs ≤ fuel → xs ≠ [] →
    parseElems fuel (printElems xs ++ ']' :: rest) = some (xs, rest)
  | [], _, _ => fun _ h => absurd rfl h
  | [x], fuel, rest => by
      intro hf hne
      cases fuel with
      | zero => simp [feList] at hf
      | succ f =>
          have hfx : fvJson x ≤ f := by
            rw [feList, feList] at hf
            omega
          rw [printElems]
          simp only [parseElems]
          rw [parseVal_print x f (']' :: rest) hfx (noDigitHead_cons (by decide))]
          simp
  | x :: y :: ys, fuel, rest => by
      intro hf hne
      cases fuel with
      | zero => simp [feList] at hf
      | succ f =>
          have hfx : fvJson x ≤ f := by
            rw [feList] at hf
            omega
          have hfe : feList (y :: ys) ≤ f := by
            rw [feList] at hf
            omega
          rw [printElems]
          simp only [parseElems]
          rw [show (printJson x ++ ',' :: ' ' :: printElems (y :: ys)) ++ ']' :: rest
              = printJson x ++ ',' :: ' ' :: (printElems (y :: ys) ++ ']' :: rest) by simp]
          rw [parseVal_print x f (',' :: ' ' :: (printElems (y :: ys) ++ ']' :: rest)) hfx
            (noDigitHead_cons (by decide))]
          simp only [Option.some_bind]
          rw [parseElems_print (y :: ys) f rest hfe (by simp)]
          rfl

theorem parseFields_print : ∀ (kvs : List (String × Json)) (fuel : Nat) (rest : List Char),
    ffFields kvs ≤ fuel → kvs ≠ [] →
    parseFields fuel (printFields kvs ++ '}' :: rest) = some (kvs, rest)
  | [], _, _ => fun _ h => absurd rfl h
  | [(k, v)], fuel, rest => by
      intro hf hne
      cases fuel with
      | zero => simp [ffFields] at hf
      | succ f =>
          have hfv : fvJson v ≤ f := by
            rw [ffFields, ffFields] at hf
            omega
          rw [printFields]
          simp only [parseFields]
          rw [show ('"' :: escapeChars k.data ++ '"' :: ':' :: ' ' :: printJson v) ++ '}' :: rest
              = '"' :: (escapeChars k.data ++ '"' :: (':' :: ' ' :: (printJson v ++ '}' :: rest)))
            by simp]
          norm_num
          rw [readStrBody_escape]
          norm_num
          rw [parseVal_print v f ('}' :: rest) hfv (noDigitHead_cons (by decide))]
          simp
  | (k, v) :: (l, w) :: kvs, fuel, rest => by
      intro hf hne
      cases fuel with
      | zero => simp [ffFields] at hf
      | succ f =>
          have hfv : fvJson v ≤ f := by
            rw [ffFields] at hf
            omega
          have hfe : ffFields ((l, w) :: kvs) ≤ f := by
            rw [ffFields] at hf
            omega
          rw [printFields]
          simp only [parseFields]
          rw [show ('"' :: escapeChars k.data ++ '"' :: ':' :: ' ' :: printJson v
                ++ ',' :: ' ' :: printFields ((l, w) :: kvs)) ++ '}' :: rest
              = '"' :: (escapeChars k.data ++ '"' :: (':' :: ' ' :: (printJson v
                ++ ',' :: ' ' :: (printFields ((l, w) :: kvs) ++ '}' :: rest))))
            by simp]
          norm_num
          rw [readStrBody_escape]
          norm_num
          rw [parseVal_print v f (',' :: ' ' :: (printFields ((l, w) :: kvs) ++ '}' :: rest)) hfv
            (noDigitHead_cons (by decide))]
          simp only [Option.some_bind]
          rw [parseFields_print ((l, w) :: kvs) f rest hfe (by simp)]
          rfl

end

mutual

theorem fvJson_le : ∀ j : Json, fvJson j ≤ (printJson j).length
  | .null => by simp [fvJson, printJson]
  | .bool true => by simp [fvJson, printJson]
  | .bool false => by simp [fvJson, printJson]
  | .num n => by
      rw [fvJson, printJson]
      have := List.length_pos.mpr (natChars_ne_nil n.natAbs)
      rw [intChars]
      by_cases hn : n < 0
      · rw [if_pos hn]; simp
      · rw [if_neg hn]; omega
  | .str s => by simp [fvJson, printJson]
  | .arr [] => by simp [fvJson, feList, printJson, printElems]
  | .arr (x :: xs) => by
      have h := feList_le (x :: xs) (by simp)
      rw [fvJson, printJson]
      simp only [List.length_cons, List.length_append]
      omega
  | .obj [] => by simp [fvJson, ffFields, printJson, printFields]
  | .obj (kv :: kvs) => by
      have h := ffFields_le (kv :: kvs) (by simp)
      rw [fvJson, printJson]
      simp only [List.length_cons, List.length_append]
      omega

theorem feList_le : ∀ (xs : List Json), xs ≠ [] → feList xs ≤ (printElems xs).length + 1
  | [], h => absurd rfl h
  | [x], _ => by
      have h := fvJson_le x
      rw [feList, feList, printElems]
      omega
  | x :: y :: ys, _ => by
      have h1 := fvJson_le x
      have h2 := feList_le (y :: ys) (by simp)
      rw [feList, printElems]
      simp only [List.length_append, List.length_cons]
      omega

theorem ffFields_le :
    ∀ (kvs : List (String × Json)), kvs ≠ [] → ffFields kvs ≤ (printFields kvs).length + 1
  | [], h => absurd rfl h
  | [(k, v)], _ => by
      have h := fvJson_le v
      rw [ffFields, ffFields, printFields]
      simp only [List.length_append, List.length_cons]
      omega
  | (k, v) :: (l, w) :: kvs, _ => by
      have h1 := fvJson_le v
      have h2 := ffFields_le ((l, w) :: kvs) (by simp)
      rw [ffFields, printFields]
      simp only [List.length_append, List.length_cons]
      omega

end

/-- Reading back what was written returns the original value: the library
round trip underlying the argument-coercion shim. -/
theorem loads_dumps (j : Json) : loads (dumps j) = some j := by
  have hfuel : fvJson j ≤ (printJson j).length + 1 := le_trans (fvJson_le j) (by omega)
  have h := parseVal_print j ((printJson j).length + 1) [] hfuel noDigitHead_nil
  rw [List.append_nil] at h
  show (match parseVal ((dumps j).data.length + 1) (dumps j).data with
    | some (j, []) => some j
    | _ => none) = some j
  have hdata : (dumps j).data = printJson j := rfl
  rw [hdata, h]

/-! ### Argument-coercion shim (`stacklet/mcp/utils/json.py`) -/

/-- Whether a value is a Python `str` instance (`isinstance(value, str)`). -/
def isStr : Json → Bool
  | .str _ => true
  | _ => false

/-- Error raised by `_maybe_load_json` when a string argument survives
decoding, naming the offending field. -/
def guardErrMsg (field : String) : String :=
  "Field " ++ field ++ ", if a string, must be a non-string encoded as JSON."

/-- Embedding of `_maybe_load_json` (utils/json.py lines 55-67): a delivered
string is JSON-decoded (empty string becomes `None`, a decode failure passes
the original value through), and any value still a string afterwards is
rejected with a `ValueError` naming the field. -/
def maybeLoadJson (value : Json) (field : String) : Except String Json :=
  let v : Json :=
    match value with
    | .str s => if s = "" then .null else (loads s).getD (.str s)
    | _ => value
  match v with
  | .str _ => .error (guardErrMsg field)
  | _ => .ok v

/-- The declared parameter types a tool signature can carry, as inspected by
`_json_guard` via `is_class_member_of_type(typ, str)`. -/
inductive PyType where
  | pyStr : PyType
  | pyInt : PyType
  | pyBool : PyType
  | pyList (t : PyType) : PyType
  | pyDict : PyType
  | pyNone : PyType
  | model (name : String) : PyType
  | union (a b : PyType) : PyType

/-- Whether `str` is a member of the declared type (`is_class_member_of_type`):
true for `str` itself and for unions containing it. -/
def acceptsStr : PyType → Bool
  | .pyStr => true
  | .union a b => acceptsStr a || acceptsStr b
  | _ => false

/-- The annotation `_json_guard` produces for one parameter: either the
declared type untouched, or the type wrapped with the JSON-decoding
`BeforeValidator` (which also advertises `typ | str` in the schema). -/
inductive GuardedAnnot where
  | plain (t : PyType) : GuardedAnnot
  | guarded (t : PyType) : GuardedAnnot

/-- Embedding of `_json_guard` (utils/json.py lines 42-52): string-accepting
types are returned unchanged, all others gain the decoding validator. -/
def jsonGuardAnnot (t : PyType) : GuardedAnnot :=
  if acceptsStr t then .plain t else .guarded t

/-- A call through the shim on one guarded parameter: the `BeforeValidator`
runs `_maybe_load_json` during validation, and only a successfully validated
value reaches the wrapped implementation `fn`. -/
def guardedCall {α : Type} (fn : Json → α) (value : Json) (field : String) :
    Except String α :=
  (maybeLoadJson value field).map fn

theorem dumps_ne_empty (x : Json) : dumps x ≠ "" := by
  obtain ⟨c, cs, hc, _, _⟩ := printJson_head x
  intro h
  have : (dumps x).data = printJson x := rfl
  rw [h, hc] at this
  cases this

theorem maybeLoadJson_native {x : Json} (hx : isStr x = false) (field : String) :
    maybeLoadJson x field = .ok x := by
  cases x <;> simp_all [maybeLoadJson, isStr]

theorem maybeLoadJson_encoded {x : Json} (hx : isStr x = false) (field : String) :
    maybeLoadJson (.str (dumps x)) field = .ok x := by
  have hne : dumps x ≠ "" := dumps_ne_empty x
  rw [maybeLoadJson]
  simp only [if_neg hne, loads_dumps, Option.getD_some]
  cases x <;> simp_all [isStr]

/-- C5: the argument-coercion shim is a JSON round-trip: for every parameter
whose declared type is not string-like and every value of that type, calling
the wrapped tool with `json.dumps(x)` behaves exactly as calling it with the
native value (`decode(encode(x)) == x`), and string-accepting declared types
are left untouched by the shim. -/
theorem json_guard_round_trip :
    (∀ (x : Json) (field : String), isStr x = false →
      maybeLoadJson (.str (dumps x)) field = .ok x ∧ maybeLoadJson x field = .ok x) ∧
    (∀ (fn : Json → Json) (x : Json) (field : String), isStr x = false →
      guardedCall fn (.str (dumps x)) field = guardedCall fn x field) ∧
    (∀ t : PyType, acceptsStr t = true → jsonGuardAnnot t = .plain t) := by
  refine ⟨fun x field hx => ⟨maybeLoadJson_encoded hx field, maybeLoadJson_native hx field⟩,
    fun fn x field hx => ?_, fun t ht => by rw [jsonGuardAnnot, if_pos ht]⟩
  rw [guardedCall, guardedCall, maybeLoadJson_encoded hx field, maybeLoadJson_native hx field]

theorem json_guard_round_trip_witness :
    maybeLoadJson (.str (dumps (.obj [("tags", .arr [.str "prod", .str "api"])]))) "filters"
      = .ok (.obj [("tags", .arr [.str "prod", .str "api"])]) :=
  (json_guard_round_trip.1 (.obj [("tags", .arr [.str "prod", .str "api"])]) "filters"
    (by decide)).1

/-- C10: through the coercion shim a non-string-typed parameter never delivers
a `str` to the implementation: the empty string becomes `None`, and a
non-empty string that fails to decode, or decodes to another string, is
rejected during validation with a `ValueError` naming the field, before the
wrapped function runs. -/
theorem json_guard_never_str :
    (∀ field : String, maybeLoadJson (.str "") field = .ok .null) ∧
    (∀ (s field : String), s ≠ "" → loads s = none →
      maybeLoadJson (.str s) field = .error (guardErrMsg field)) ∧
    (∀ (s t field : String), s ≠ "" → loads s = some (.str t) →
      maybeLoadJson (.str s) field = .error (guardErrMsg field)) ∧
    (∀ (value : Json) (field : String) (j : Json),
      maybeLoadJson value field = .ok j → isStr j = false) ∧
    (∀ (fn gn : Json → Json) (s field : String), s ≠ "" → loads s = none →
      guardedCall fn (.str s) field = guardedCall gn (.str s) field) := by
  have h2 : ∀ (s field : String), s ≠ "" → loads s = none →
      maybeLoadJson (.str s) field = .error (guardErrMsg field) := by
    intro s field hs hl
    rw [maybeLoadJson]
    simp [if_neg hs, hl]
  refine ⟨fun field => rfl, h2, ?_, ?_, ?_⟩
  · intro s t field hs hl
    rw [maybeLoadJson]
    simp [if_neg hs, hl]
  · intro value field j h
    cases value with
    | str s =>
        rw [maybeLoadJson] at h
        by_cases hs : s = ""
        · simp [hs] at h
          rw [← h]
          rfl
        · cases hl : loads s with
          | none => simp [if_neg hs, hl] at h
          | some u =>
              simp only [if_neg hs, hl, Option.getD_some] at h
              cases u with
              | str t => simp at h
              | null => simp at h; rw [← h]; rfl
              | bool b => simp at h; rw [← h]; rfl
              | num n => simp at h; rw [← h]; rfl
              | arr xs => simp at h; rw [← h]; rfl
              | obj kvs => simp at h; rw [← h]; rfl
    | null => simp [maybeLoadJson] at h; rw [← h]; rfl
    | bool b => simp [maybeLoadJson] at h; rw [← h]; rfl
    | num n => simp [maybeLoadJson] at h; rw [← h]; rfl
    | arr xs => simp [maybeLoadJson] at h; rw [← h]; rfl
    | obj kvs => simp [maybeLoadJson] at h; rw [← h]; rfl
  · intro fn gn s field hs hl
    rw [guardedCall, guardedCall, h2 s field hs hl]
    rfl

theorem json_guard_never_str_witness :
    maybeLoadJson (.str "nope") "parameters" = .error (guardErrMsg "parameters")
    ∧ maybeLoadJson (.str "\"still a string\"") "variables" = .error (guardErrMsg "variables") :=
  ⟨json_guard_never_str.2.1 "nope" "parameters" (by decide) (by rfl),
   json_guard_never_str.2.2.1 "\"still a string\"" "still a string" "variables"
     (by decide) (by rfl)⟩

/-! ### Asset-DB job polling (`stacklet/mcp/assetdb/redash.py`, `models.py`) -/

/-- Redash job statuses (`assetdb/models.py` `JobStatus`). -/
inductive JobStatus where
  | queued | started | finished | failed | canceled | deferred | scheduled
  deriving DecidableEq

/-- `JobStatus.is_terminal` from `assetdb/models.py`: finished, failed or
canceled. -/
def JobStatus.is_terminal : JobStatus → Bool
  | .finished => true
  | .failed => true
  | .canceled => true
  | _ => false

/-- Redash job object (`assetdb/models.py` `Job`). -/
structure Job where
  id : String
  status : JobStatus
  error : Option String
  query_result_id : Option Int
  deriving DecidableEq

/-- Python truthiness of `job.query_result_id` (`if job.query_result_id:`):
false for `None` and for `0`. -/
def truthyId : Option Int → Bool
  | none => false
  | some n => n ≠ 0

/-- Message format of `annotated_error` (utils/error.py line 31), without the
optional original-error suffix. -/
def annotatedMessage (problem cause steps : String) : String :=
  problem ++ ". This likely means " ++ cause ++ ". Next steps: " ++ steps

/-- Python `job.error or '(unknown)'`: `None` and the empty string both fall
back to the default. -/
def errorOrUnknown : Option String → String
  | none => "(unknown)"
  | some s => if s = "" then "(unknown)" else s

/-- The error `_poll_job` raises for a terminal job with no result id
(redash.py lines 210-214). -/
def queryErrorMessage (error : Option String) : String :=
  annotatedMessage ("Query execution error: " ++ errorOrUnknown error)
    "the query SQL or parameters were invalid"
    "investigate the errors, or try a simpler query and build up"

/-- The error `_poll_job` raises when the deadline passes (redash.py lines
218-222). -/
def timeoutMessage (timeout : Int) : String :=
  annotatedMessage ("Timed out after " ++ toString timeout ++ " seconds")
    "the query is still executing"
    "request cached results (with max_age=-1), or try a simpler query"

/-- How one `_poll_job` invocation ends. -/
inductive PollExit where
  | success (resultId : Int) : PollExit
  | failed (msg : String) : PollExit
  | timedOut (msg : String) : PollExit
  | exhausted : PollExit
  deriving DecidableEq

/-- Observable trace of a poll: how it ended, every sleep issued (in order),
and how many status fetches were made. -/
structure PollTrace where
  exit : PollExit
  sleeps : List Int
  fetches : Nat
  deriving DecidableEq

/-- Record one more fetch, sleeping `s` before the rest of the trace. -/
def prependSleep (s : Int) (t : PollTrace) : PollTrace :=
  ⟨t.exit, s :: t.sleeps, t.fetches + 1⟩

/-- Embedding of the `_poll_job` loop (redash.py lines 202-224). The list
holds the successive `GET api/jobs/{id}` responses; `remaining` is
`cutoff - time.monotonic()`, which starts at `timeout` and decreases exactly
by each sleep (fetches are instantaneous, as in the repository's test
clock); `exhausted` marks running out of scripted responses. -/
def pollJobGo : List Job → Int → Int → Int → PollTrace
  | [], _, _, _ => ⟨.exhausted, [], 0⟩
  | job :: rest, remaining, timeout, interval =>
      if truthyId job.query_result_id then ⟨.success (job.query_result_id.getD 0), [], 1⟩
      else if job.status.is_terminal then ⟨.failed (queryErrorMessage job.error), [], 1⟩
      else if remaining ≤ 0 then ⟨.timedOut (timeoutMessage timeout), [], 1⟩
      else
        prependSleep (min interval remaining)
          (pollJobGo rest (remaining - min interval remaining) timeout (2 * interval))

/-- `AssetDBClient._poll_job(job, timeout)`: `cutoff = monotonic() + timeout`,
`interval_s = 2`, then the loop above. -/
def pollJob (fetches : List Job) (timeout : Int) : PollTrace :=
  pollJobGo fetches timeout timeout 2

/-- A poll response that keeps the loop going: non-terminal status and no
(truthy) result id. -/
def nonTerminalJob (j : Job) : Bool :=
  !truthyId j.query_result_id && !j.status.is_terminal

/-- Modelled from the spec: (section 4.1) the backoff interval sequence
starts at 2 seconds, doubles after each non-terminal result, and each sleep
is capped at the remaining time to the deadline
(`sleep = min(current_interval, remaining)`), stopping once the deadline is
reached. The fuel argument (one unit per second of remaining budget, each
sleep being at least one second) makes the recursion structural. -/
def specBackoffAux : Nat → Int → Int → List Int
  | 0, _, _ => []
  | fuel + 1, remaining, interval =>
      if remaining ≤ 0 then []
      else min interval remaining :: specBackoffAux fuel (remaining - min interval remaining)
        (2 * interval)

/-- Modelled from the spec: the full sleep sequence before the deadline for a
job that never reaches a terminal state. -/
def specBackoffSleeps (timeout : Int) : List Int :=
  specBackoffAux timeout.toNat timeout 2

theorem pollJobGo_spec :
    ∀ (fuel : Nat) (remaining interval timeout : Int) (jobs rest : List Job),
      1 ≤ interval → remaining.toNat ≤ fuel →
      (∀ j ∈ jobs, nonTerminalJob j = true) →
      jobs.length = (specBackoffAux fuel remaining interval).length + 1 →
      pollJobGo (jobs ++ rest) remaining timeout interval
        = ⟨.timedOut (timeoutMessage timeout), specBackoffAux fuel remaining interval,
            jobs.length⟩ := by
  intro fuel
  induction fuel with
  | zero =>
      intro remaining interval timeout jobs rest hi ht hnt hlen
      rw [specBackoffAux] at hlen ⊢
      match jobs, hlen with
      | [j], _ =>
          have hj := hnt j (by simp)
          rw [nonTerminalJob] at hj
          simp only [List.cons_append, List.nil_append, pollJobGo]
          rw [if_neg (by simp_all), if_neg (by simp_all), if_pos (by omega)]
          rfl
  | succ f ih =>
      intro remaining interval timeout jobs rest hi ht hnt hlen
      by_cases hr : remaining ≤ 0
      · rw [specBackoffAux, if_pos hr] at hlen ⊢
        match jobs, hlen with
        | [j], _ =>
            have hj := hnt j (by simp)
            rw [nonTerminalJob] at hj
            simp only [List.cons_append, List.nil_append, pollJobGo]
            rw [if_neg (by simp_all), if_neg (by simp_all), if_pos hr]
            rfl
      · rw [specBackoffAux, if_neg hr] at hlen ⊢
        match jobs, hlen with
        | j :: jobs, hlen =>
            have hj := hnt j (by simp)
            rw [nonTerminalJob] at hj
            simp only [List.cons_append, pollJobGo]
            rw [if_neg (by simp_all), if_neg (by simp_all), if_neg (by omega)]
            have hs : 1 ≤ min interval remaining := by omega
            simp only [List.append_eq]
            rw [ih (remaining - min interval remaining) (2 * interval) timeout jobs rest
              (by omega) (by omega)
              (fun x hx => hnt x (by simp [hx]))
              (by simp at hlen; omega)]
            simp at hlen
            simp [prependSleep, hlen]

/-- C1: strict-mode `_poll_job` sleeps with intervals that start at 2 seconds
and double after each non-terminal result, each sleep capped at the remaining
time to the deadline (`min(current_interval, remaining)`); in particular a
job that never leaves a non-terminal status with `timeout = 60` records the
sleeps `[2, 4, 8, 16, 30]` and then raises a timeout error naming the
elapsed timeout. -/
theorem stringAppend_assoc (a b c : String) : a ++ b ++ c = a ++ (b ++ c) := by
  cases a with | mk da => cases b with | mk db => cases c with | mk dc =>
  show String.mk ((da ++ db) ++ dc) = String.mk (da ++ (db ++ dc))
  rw [List.append_assoc]

theorem poll_job_backoff :
    (∀ (timeout : Int) (jobs rest : List Job),
      (∀ j ∈ jobs, nonTerminalJob j = true) →
      jobs.length = (specBackoffSleeps timeout).length + 1 →
      pollJob (jobs ++ rest) timeout
        = ⟨.timedOut (timeoutMessage timeout), specBackoffSleeps timeout, jobs.length⟩) ∧
    specBackoffSleeps 60 = [2, 4, 8, 16, 30] ∧
    (∀ timeout : Int, timeoutMessage timeout
      = "Timed out after " ++ toString timeout ++ " seconds. This likely means "
        ++ "the query is still executing. Next steps: "
        ++ "request cached results (with max_age=-1), or try a simpler query") := by
  refine ⟨fun timeout jobs rest hnt hlen => ?_, by rfl, fun timeout => ?_⟩
  · exact pollJobGo_spec timeout.toNat timeout 2 timeout jobs rest (by omega) (by omega) hnt hlen
  · simp only [timeoutMessage, annotatedMessage, stringAppend_assoc]
    congr 2

theorem poll_job_backoff_witness :
    pollJob ([⟨"job-456", .queued, some "", none⟩, ⟨"job-456", .queued, some "", none⟩,
        ⟨"job-456", .started, some "", none⟩, ⟨"job-456", .started, some "", none⟩,
        ⟨"job-456", .started, some "", none⟩, ⟨"job-456", .started, some "", none⟩] ++ []) 60
      = ⟨.timedOut (timeoutMessage 60), [2, 4, 8, 16, 30], 6⟩ := by
  have h := poll_job_backoff.1 60
    [⟨"job-456", .queued, some "", none⟩, ⟨"job-456", .queued, some "", none⟩,
     ⟨"job-456", .started, some "", none⟩, ⟨"job-456", .started, some "", none⟩,
     ⟨"job-456", .started, some "", none⟩, ⟨"job-456", .started, some "", none⟩] []
    (by decide) (by decide)
  exact h.trans (by rfl)

/-- C2: on the inputs of the repository's own tests (a job ending FAILED with
error "Oh no borken", and a job ending CANCELED with an empty error), the
shipped `_poll_job` does raise immediately, but with the annotated message
"Query execution error: ...", not the exact messages
"Query execution failed: Oh no borken" and
"Query execution failed: Unknown error." that the claim (and
tests/test_tools_assetdb.py) require. -/
theorem poll_job_failure_message_bug :
    (pollJob [⟨"job-456", .queued, some "", none⟩,
        ⟨"job-456", .failed, some "Oh no borken", none⟩] 60).exit
      = .failed (queryErrorMessage (some "Oh no borken"))
    ∧ queryErrorMessage (some "Oh no borken")
      = "Query execution error: Oh no borken. This likely means the query SQL or "
        ++ "parameters were invalid. Next steps: investigate the errors, or try a "
        ++ "simpler query and build up"
    ∧ queryErrorMessage (some "Oh no borken") ≠ "Query execution failed: Oh no borken"
    ∧ (pollJob [⟨"job-456", .queued, some "", none⟩,
        ⟨"job-456", .canceled, some "", none⟩] 60).exit
      = .failed (queryErrorMessage (some ""))
    ∧ queryErrorMessage (some "")
      = "Query execution error: (unknown). This likely means the query SQL or "
        ++ "parameters were invalid. Next steps: investigate the errors, or try a "
        ++ "simpler query and build up"
    ∧ queryErrorMessage (some "") ≠ "Query execution failed: Unknown error." := by
  refine ⟨by rfl, by rfl, by decide, by rfl, by rfl, by decide⟩

/-! ### Dataset-export polling (best-effort mode) -/

/-- The `ConnectionExport` node state fetched by one export status poll
(spec section 3, ExportHandle): `completed` non-null is the sole terminal
signal; `success` and `download_url` are only meaningful once `completed`
is set. -/
structure ExportStatus where
  id : String
  started : Option String
  completed : Option String
  success : Option Bool
  processed : Option Int
  downloadUrl : Option String
  availableUntil : Option String
  message : Option String
  deriving DecidableEq

/-- How a best-effort export poll ends: always a fetched state, never an
exception (`exhausted` marks running out of scripted responses). -/
inductive WaitExit where
  | state (st : ExportStatus) : WaitExit
  | exhausted : WaitExit
  deriving DecidableEq

/-- Observable trace of one best-effort poll. -/
structure WaitTrace where
  exit : WaitExit
  sleeps : List Int
  fetches : Nat
  deriving DecidableEq

def prependWaitSleep (s : Int) (t : WaitTrace) : WaitTrace :=
  ⟨t.exit, s :: t.sleeps, t.fetches + 1⟩

/-- Modelled from the spec: `PlatformClient.wait_for_export` is absent from
the source snapshot (its caller `platform/tools.py` and its tests remain),
so the loop is taken from spec sections 4.1 and 4.4: best-effort mode fetches
the export node, returns any completed state as data, returns the
last-fetched state as-is once the deadline is reached (never raising on
timeout or on unsuccessful completion), and otherwise sleeps with the same
capped doubling backoff as the strict poller; `timeout = 0` means one fetch
and an immediate return. -/
def waitExportGo : List ExportStatus → Int → Int → WaitTrace
  | [], _, _ => ⟨.exhausted, [], 0⟩
  | st :: rest, remaining, interval =>
      if st.completed.isSome then ⟨.state st, [], 1⟩
      else if remaining ≤ 0 then ⟨.state st, [], 1⟩
      else
        prependWaitSleep (min interval remaining)
          (waitExportGo rest (remaining - min interval remaining) (2 * interval))

/-- Modelled from the spec: `wait_for_export(export_id, timeout)` drives the
best-effort loop with the backoff interval starting at 2 seconds. -/
def waitForExport (fetches : List ExportStatus) (timeout : Int) : WaitTrace :=
  waitExportGo fetches timeout 2

theorem waitExportGo_result :
    ∀ (fetches : List ExportStatus) (remaining interval : Int),
      (waitExportGo fetches remaining interval).exit = .exhausted ∨
        ∃ st ∈ fetches, (waitExportGo fetches remaining interval).exit = .state st := by
  intro fetches
  induction fetches with
  | nil => intro remaining interval; left; rfl
  | cons st rest ih =>
      intro remaining interval
      rw [waitExportGo]
      by_cases hc : st.completed.isSome
      · right
        exact ⟨st, by simp, by rw [if_pos hc]⟩
      · rw [if_neg hc]
        by_cases hr : remaining ≤ 0
        · right
          exact ⟨st, by simp, by rw [if_pos hr]⟩
        · rw [if_neg hr]
          rcases ih (remaining - min interval remaining) (2 * interval) with h | ⟨u, hu, h⟩
          · left
            rw [prependWaitSleep]
            exact h
          · right
            exact ⟨u, by simp [hu], by rw [prependWaitSleep]; exact h⟩

theorem waitExportGo_spec :
    ∀ (fuel : Nat) (remaining interval : Int) (sts rest : List ExportStatus)
      (last : ExportStatus),
      1 ≤ interval → remaining.toNat ≤ fuel →
      (∀ st ∈ sts, st.completed = none) →
      sts.length = (specBackoffAux fuel remaining interval).length + 1 →
      sts.getLast? = some last →
      waitExportGo (sts ++ rest) remaining interval
        = ⟨.state last, specBackoffAux fuel remaining interval, sts.length⟩ := by
  intro fuel
  induction fuel with
  | zero =>
      intro remaining interval sts rest last hi ht hnt hlen hlast
      rw [specBackoffAux] at hlen ⊢
      match sts, hlen with
      | [st], _ =>
          have hc := hnt st (by simp)
          simp at hlast
          simp only [List.cons_append, List.nil_append, waitExportGo]
          rw [if_neg (by simp [hc]), if_pos (by omega), hlast]
          rfl
  | succ f ih =>
      intro remaining interval sts rest last hi ht hnt hlen hlast
      by_cases hr : remaining ≤ 0
      · rw [specBackoffAux, if_pos hr] at hlen ⊢
        match sts, hlen with
        | [st], _ =>
            have hc := hnt st (by simp)
            simp at hlast
            simp only [List.cons_append, List.nil_append, waitExportGo]
            rw [if_neg (by simp [hc]), if_pos hr, hlast]
            rfl
      · rw [specBackoffAux, if_neg hr] at hlen ⊢
        match sts, hlen with
        | st :: s2 :: sts, hlen =>
            have hc := hnt st (by simp)
            rw [show (st :: s2 :: sts) ++ rest = st :: (s2 :: sts ++ rest) by simp]
            rw [waitExportGo]
            rw [if_neg (by simp [hc]), if_neg (by omega)]
            rw [ih (remaining - min interval remaining) (2 * interval) (s2 :: sts) rest last
              (by omega) (by omega)
              (fun x hx => hnt x (by simp [hx]))
              (by simp at hlen; simp; omega)
              (by rw [List.getLast?_cons_cons] at hlast; exact hlast)]
            simp at hlen
            simp [prependWaitSleep]

/-- C3: dataset-export polling is best-effort: the poll result is always a
fetched state returned as data (never an exception); when the deadline
passes while the export is incomplete the last-fetched non-terminal state is
returned as-is, and an export that completed unsuccessfully (success false,
message intact) is likewise returned as data. Modelled from the spec, since
`wait_for_export` is absent from the source snapshot. -/
theorem export_poll_best_effort :
    (∀ (fetches : List ExportStatus) (timeout : Int),
      (waitForExport fetches timeout).exit = .exhausted ∨
        ∃ st ∈ fetches, (waitForExport fetches timeout).exit = .state st) ∧
    (∀ (timeout : Int) (sts rest : List ExportStatus) (last : ExportStatus),
      (∀ st ∈ sts, st.completed = none) →
      sts.length = (specBackoffSleeps timeout).length + 1 →
      sts.getLast? = some last →
      waitForExport (sts ++ rest) timeout
        = ⟨.state last, specBackoffSleeps timeout, sts.length⟩) ∧
    (∀ (st : ExportStatus) (rest : List ExportStatus) (timeout : Int) (c : String),
      st.completed = some c → st.success = some false →
      waitForExport (st :: rest) timeout = ⟨.state st, [], 1⟩) := by
  refine ⟨fun fetches timeout => waitExportGo_result fetches timeout 2,
    fun timeout sts rest last hnt hlen hlast =>
      waitExportGo_spec timeout.toNat timeout 2 sts rest last (by omega) (by omega)
        hnt hlen hlast,
    fun st rest timeout c hc hs => ?_⟩
  rw [waitForExport, waitExportGo, if_pos (by simp [hc])]

theorem export_poll_best_effort_witness :
    (waitForExport
        [⟨"node-123", none, some "2024-12-06T03:15:09+00:00", some false, some 23,
          none, none, some "meh."⟩] 60)
      = ⟨.state ⟨"node-123", none, some "2024-12-06T03:15:09+00:00", some false, some 23,
          none, none, some "meh."⟩, [], 1⟩ ∧
    (waitForExport
        ([⟨"node-123", none, none, none, none, none, none, none⟩,
          ⟨"node-123", none, none, none, none, none, none, none⟩,
          ⟨"node-123", some "2024-12-06T03:15:07+00:00", none, none, some 11, none, none, none⟩,
          ⟨"node-123", some "2024-12-06T03:15:07+00:00", none, none, some 11, none, none, none⟩,
          ⟨"node-123", some "2024-12-06T03:15:07+00:00", none, none, some 11, none, none, none⟩,
          ⟨"node-123", some "2024-12-06T03:15:07+00:00", none, none, some 11, none, none, none⟩]
          ++ []) 60)
      = ⟨.state ⟨"node-123", some "2024-12-06T03:15:07+00:00", none, none, some 11,
          none, none, none⟩, [2, 4, 8, 16, 30], 6⟩ := by
  constructor
  · exact export_poll_best_effort.2.2 _ [] 60 "2024-12-06T03:15:09+00:00" (by rfl) (by rfl)
  · exact (export_poll_best_effort.2.1 60 _ [] _ (by decide) (by decide) (by rfl)).trans
      (by rfl)

/-- C4: with a non-positive timeout each poller performs exactly one status
fetch, no sleep, and settles on that single result (success, terminal
failure or timeout for the strict job poller; the current state for the
best-effort export poller); and every invocation performs at least one fetch
before any timeout handling. -/
theorem poller_single_fetch :
    (∀ (timeout : Int) (job : Job) (rest : List Job), timeout ≤ 0 →
      pollJob (job :: rest) timeout = pollJob [job] timeout ∧
      (pollJob (job :: rest) timeout).fetches = 1 ∧
      (pollJob (job :: rest) timeout).sleeps = [] ∧
      (truthyId job.query_result_id = true →
        (pollJob (job :: rest) timeout).exit = .success (job.query_result_id.getD 0)) ∧
      (truthyId job.query_result_id = false → job.status.is_terminal = true →
        (pollJob (job :: rest) timeout).exit = .failed (queryErrorMessage job.error)) ∧
      (truthyId job.query_result_id = false → job.status.is_terminal = false →
        (pollJob (job :: rest) timeout).exit = .timedOut (timeoutMessage timeout))) ∧
    (∀ (timeout : Int) (st : ExportStatus) (rest : List ExportStatus), timeout ≤ 0 →
      waitForExport (st :: rest) timeout = ⟨.state st, [], 1⟩) ∧
    (∀ (timeout : Int) (job : Job) (rest : List Job),
      1 ≤ (pollJob (job :: rest) timeout).fetches) ∧
    (∀ (timeout : Int) (st : ExportStatus) (rest : List ExportStatus),
      1 ≤ (waitForExport (st :: rest) timeout).fetches) := by
  have hpoll : ∀ (timeout : Int) (job : Job) (rest : List Job), timeout ≤ 0 →
      pollJob (job :: rest) timeout
        = if truthyId job.query_result_id then ⟨.success (job.query_result_id.getD 0), [], 1⟩
          else if job.status.is_terminal then ⟨.failed (queryErrorMessage job.error), [], 1⟩
          else ⟨.timedOut (timeoutMessage timeout), [], 1⟩ := by
    intro timeout job rest ht
    rw [pollJob, pollJobGo]
    by_cases h1 : truthyId job.query_result_id
    · rw [if_pos h1, if_pos h1]
    · rw [if_neg h1, if_neg h1]
      by_cases h2 : job.status.is_terminal
      · rw [if_pos h2, if_pos h2]
      · rw [if_neg h2, if_neg h2, if_pos ht]
  refine ⟨fun timeout job rest ht => ?_,
    fun timeout st rest ht => by rw [waitForExport, waitExportGo]; split <;> simp [if_pos ht],
    fun timeout job rest => ?_, fun timeout st rest => ?_⟩
  · refine ⟨by rw [hpoll timeout job rest ht, hpoll timeout job [] ht], ?_, ?_,
      fun h1 => ?_, fun h1 h2 => ?_, fun h1 h2 => ?_⟩
    · rw [hpoll timeout job rest ht]
      split
      · rfl
      · split
        · rfl
        · rfl
    · rw [hpoll timeout job rest ht]
      split
      · rfl
      · split
        · rfl
        · rfl
    · rw [hpoll timeout job rest ht, if_pos h1]
    · rw [hpoll timeout job rest ht, if_neg (by simp [h1]), if_pos h2]
    · rw [hpoll timeout job rest ht, if_neg (by simp [h1]), if_neg (by simp [h2])]
  · rw [pollJob, pollJobGo]
    split
    · rfl
    · split
      · rfl
      · split
        · rfl
        · simp [prependSleep]
  · rw [waitForExport, waitExportGo]
    split
    · rfl
    · split
      · rfl
      · simp [prependWaitSleep]

theorem poller_single_fetch_witness :
    (pollJob [⟨"job-456", .queued, some "", none⟩,
        ⟨"job-456", .finished, some "", some 789⟩] 0).fetches = 1
    ∧ (pollJob [⟨"job-456", .queued, some "", none⟩,
        ⟨"job-456", .finished, some "", some 789⟩] 0).exit = .timedOut (timeoutMessage 0)
    ∧ waitForExport [⟨"node-123", none, none, none, none, none, none, none⟩] 0
      = ⟨.state ⟨"node-123", none, none, none, none, none, none, none⟩, [], 1⟩ :=
  ⟨(poller_single_fetch.1 0 ⟨"job-456", .queued, some "", none⟩
      [⟨"job-456", .finished, some "", some 789⟩] (by decide)).2.1,
   (poller_single_fetch.1 0 ⟨"job-456", .queued, some "", none⟩
      [⟨"job-456", .finished, some "", some 789⟩] (by decide)).2.2.2.2.2
      (by decide) (by decide),
   poller_single_fetch.2.1 0 ⟨"node-123", none, none, none, none, none, none, none⟩ []
     (by decide)⟩

/-! ### Query-result reshaping and persistence (`assetdb/tools.py`, `redash.py`) -/

/-- Python `dict.get` on a JSON object (`None` when absent or the value is
not a dict). -/
def getKey (j : Json) (k : String) : Option Json :=
  match j with
  | .obj kvs => (kvs.find? fun kv => kv.1 = k).map fun kv => kv.2
  | _ => none

/-- A query-result column (`assetdb/models.py` `QueryResultColumn`; extra
payload keys are ignored by the model). -/
structure QueryResultColumnM where
  name : String
  type : Option String
  friendly_name : Option String
  deriving DecidableEq

/-- Parsed query result (`assetdb/models.py` `QueryResult`, with its nested
`QueryResultData`): the fields the pydantic model keeps, everything else in
the payload is dropped (`extra="ignore"`). Numbers are modelled as integers
and the retrieval timestamp as its canonical string. -/
structure QueryResultM where
  id : Int
  query : String
  columns : List QueryResultColumnM
  rows : List (List (String × Json))
  data_source_id : Int
  runtime : Int
  retrieved_at : String
  deriving DecidableEq

def parseColumn (j : Json) : Option QueryResultColumnM :=
  match j with
  | .obj _ =>
      match getKey j "name" with
      | some (.str n) =>
          let ty := match getKey j "type" with
            | some (.str t) => some (some t)
            | some .null => some none
            | none => some none
            | _ => none
          let fr := match getKey j "friendly_name" with
            | some (.str t) => some (some t)
            | some .null => some none
            | none => some none
            | _ => none
          match ty, fr with
          | some ty, some fr => some ⟨n, ty, fr⟩
          | _, _ => none
      | _ => none
  | _ => none

def parseRow (j : Json) : Option (List (String × Json)) :=
  match j with
  | .obj kvs => some kvs
  | _ => none

/-- Pydantic validation of a `query_result` payload into `QueryResultM`
(required typed fields; extra keys ignored). -/
def parseQueryResult (payload : Json) : Option QueryResultM :=
  match payload with
  | .obj _ =>
      match getKey payload "id", getKey payload "query", getKey payload "data",
          getKey payload "data_source_id", getKey payload "runtime",
          getKey payload "retrieved_at" with
      | some (.num i), some (.str q), some data, some (.num dsi), some (.num rt),
          some (.str ts) =>
          match getKey data "columns", getKey data "rows" with
          | some (.arr cols), some (.arr rows) =>
              match cols.mapM parseColumn, rows.mapM parseRow with
              | some cs, some rs => some ⟨i, q, cs, rs, dsi, rt, ts⟩
              | _, _ => none
          | _, _ => none
      | _, _, _, _, _, _ => none
  | _ => none

def dumpColumn (c : QueryResultColumnM) : Json :=
  .obj [("name", .str c.name),
    ("type", match c.type with | some t => .str t | none => .null),
    ("friendly_name", match c.friendly_name with | some t => .str t | none => .null)]

/-- `query_result.model_dump(mode="json")`: the model's own fields, in
declaration order. -/
def dumpQueryResult (qr : QueryResultM) : Json :=
  .obj [("id", .num qr.id), ("query", .str qr.query),
    ("data", .obj [("columns", .arr (qr.columns.map dumpColumn)),
      ("rows", .arr (qr.rows.map Json.obj))]),
    ("data_source_id", .num qr.data_source_id), ("runtime", .num qr.runtime),
    ("retrieved_at", .str qr.retrieved_at)]

/-- How `_execute_results` (redash.py lines 178-189) proceeds on the POST
response: a `query_result` key means a synchronous result returned at once
(the job poller is never entered); otherwise the `job` value flows into
`_poll_job`. -/
inductive ExecOutcome where
  | sync (qr : QueryResultM) : ExecOutcome
  | needsPoll (job : Json) : ExecOutcome
  | invalid : ExecOutcome
  deriving DecidableEq

def executeResults (response : Json) : ExecOutcome :=
  match getKey response "query_result" with
  | some payload =>
      match parseQueryResult payload with
      | some qr => .sync qr
      | none => .invalid
  | none =>
      match getKey response "job" with
      | some j => .needsPoll j
      | none => .invalid

/-- The saved query fields `_tool_query_result` consumes (`Query.id` and
`Query.api_key`). -/
structure QueryM where
  id : Int
  api_key : String
  deriving DecidableEq

/-- Export formats of `assetdb/models.py` `ExportFormat`. -/
inductive AssetExportFormat where
  | csv | json | tsv | xlsx
  deriving DecidableEq

def AssetExportFormat.ext : AssetExportFormat → String
  | .csv => "csv"
  | .json => "json"
  | .tsv => "tsv"
  | .xlsx => "xlsx"

def assetExportFormats : List AssetExportFormat := [.csv, .json, .tsv, .xlsx]

/-- `AssetDBClient.get_query_result_urls` (redash.py lines 226-246), with
`urljoin` on a base URL ending in a slash modelled as concatenation. -/
def queryResultUrl (redashUrl : String) (q : QueryM) (qr : QueryResultM)
    (fmt : AssetExportFormat) : String :=
  redashUrl ++ "api/queries/" ++ toString q.id ++ "/results/" ++ toString qr.id
    ++ "." ++ fmt.ext ++ "?api_key=" ++ q.api_key

/-- The file-name identity `_tool_query_result` uses: query id and result id
for a saved query, result id alone for an ad-hoc one (tools.py line 371). -/
def queryResultIdentity (q : Option QueryM) (qr : QueryResultM) : String :=
  match q with
  | some query => toString query.id ++ "_" ++ toString qr.id
  | none => toString qr.id

/-- Output shape of `_tool_query_result` (`assetdb/models.py`
`ToolQueryResult`). -/
structure ToolQueryResultM where
  result_id : Int
  query_id : Option Int
  query_text : String
  query_runtime : Int
  query_timestamp : String
  columns : List QueryResultColumnM
  row_count : Nat
  some_rows : List (List (String × Json))
  full_results_saved_to : String
  alternate_formats : Option (List (AssetExportFormat × String))
  deriving DecidableEq

/-- Embedding of `_tool_query_result` (tools.py lines 344-398).
`downloadsPath` is `SETTINGS.downloads_path` and `salt` the random part
`NamedTemporaryFile` inserts between the prefix and the `.json` suffix; the
persisted file's content is `savedResultContent qr`. -/
def toolQueryResult (redashUrl : String) (qr : QueryResultM) (q : Option QueryM)
    (downloadsPath salt : String) : ToolQueryResultM :=
  { result_id := qr.id
    query_id := q.map (fun query => query.id)
    query_text := qr.query
    query_runtime := qr.runtime
    query_timestamp := qr.retrieved_at
    columns := qr.columns
    row_count := qr.rows.length
    some_rows := qr.rows.take 20
    full_results_saved_to :=
      downloadsPath ++ "/assetdb_" ++ queryResultIdentity q qr ++ salt ++ ".json"
    alternate_formats :=
      q.map fun query => assetExportFormats.map fun fmt =>
        (fmt, queryResultUrl redashUrl query qr fmt) }

/-- The JSON text `_tool_query_result` writes to the download file:
`json.dump(query_result.model_dump(mode="json"), f)`. -/
def savedResultContent (qr : QueryResultM) : String :=
  dumps (dumpQueryResult qr)

/-- C6: every `ToolQueryResult` has `some_rows == rows[:20]` and
`row_count == len(rows)`; hence `some_rows` is a prefix of the full row
sequence with length at most 20 and at most `row_count`. -/
theorem tool_query_result_rows :
    ∀ (redashUrl : String) (qr : QueryResultM) (q : Option QueryM) (dpath salt : String),
      (toolQueryResult redashUrl qr q dpath salt).some_rows = qr.rows.take 20 ∧
      (toolQueryResult redashUrl qr q dpath salt).row_count = qr.rows.length ∧
      (∃ t, (toolQueryResult redashUrl qr q dpath salt).some_rows ++ t = qr.rows) ∧
      (toolQueryResult redashUrl qr q dpath salt).some_rows.length ≤ 20 ∧
      (toolQueryResult redashUrl qr q dpath salt).some_rows.length
        ≤ (toolQueryResult redashUrl qr q dpath salt).row_count := by
  intro redashUrl qr q dpath salt
  refine ⟨rfl, rfl, ⟨qr.rows.drop 20, List.take_append_drop 20 qr.rows⟩, ?_, ?_⟩
  · simp [toolQueryResult]
  · simp [toolQueryResult]

/-- C8 (amended): query execution always persists the full result as JSON
under the downloads directory, keyed `assetdb_{query_id}_{result_id}` for
saved queries and `assetdb_{result_id}` for ad-hoc ones; a synchronous
`query_result` response is returned at once without entering the job poller;
and the persisted JSON is the serialization of the parsed `QueryResult`
model — equal to the raw broker payload exactly when the payload consists of
precisely the model's own fields. -/
theorem query_result_persistence :
    (∀ (response payload : Json) (qr : QueryResultM),
      getKey response "query_result" = some payload →
      parseQueryResult payload = some qr →
      executeResults response = .sync qr) ∧
    (∀ (redashUrl : String) (qr : QueryResultM) (q : Option QueryM) (dpath salt : String),
      (toolQueryResult redashUrl qr q dpath salt).full_results_saved_to
        = dpath ++ "/assetdb_" ++ queryResultIdentity q qr ++ salt ++ ".json") ∧
    (∀ qr : QueryResultM, queryResultIdentity none qr = toString qr.id) ∧
    (∀ (query : QueryM) (qr : QueryResultM),
      queryResultIdentity (some query) qr = toString query.id ++ "_" ++ toString qr.id) ∧
    (∀ (payload : Json) (qr : QueryResultM), parseQueryResult payload = some qr →
      dumpQueryResult qr = payload → savedResultContent qr = dumps payload) := by
  refine ⟨fun response payload qr h1 h2 => ?_, fun _ _ _ _ _ => rfl, fun _ => rfl,
    fun _ _ => rfl, fun payload qr _ h2 => ?_⟩
  · rw [executeResults, h1]
    simp [h2]
  · rw [savedResultContent, h2]

set_option maxRecDepth 10000 in
theorem query_result_persistence_witness :
    executeResults (.obj [("query_result",
        .obj [("id", .num 789), ("query", .str "SELECT 1 AS col"),
          ("data", .obj [("columns", .arr [.obj [("name", .str "col"),
              ("type", .str "int"), ("friendly_name", .str "Col")]]),
            ("rows", .arr [.obj [("col", .num 0)]])]),
          ("data_source_id", .num 1), ("runtime", .num 0),
          ("retrieved_at", .str "2024-01-01T00:00:00Z")])])
      = .sync ⟨789, "SELECT 1 AS col", [⟨"col", some "int", some "Col"⟩],
          [[("col", .num 0)]], 1, 0, "2024-01-01T00:00:00Z"⟩ ∧
    savedResultContent ⟨789, "SELECT 1 AS col", [⟨"col", some "int", some "Col"⟩],
        [[("col", .num 0)]], 1, 0, "2024-01-01T00:00:00Z"⟩
      = dumps (.obj [("id", .num 789), ("query", .str "SELECT 1 AS col"),
          ("data", .obj [("columns", .arr [.obj [("name", .str "col"),
              ("type", .str "int"), ("friendly_name", .str "Col")]]),
            ("rows", .arr [.obj [("col", .num 0)]])]),
          ("data_source_id", .num 1), ("runtime", .num 0),
          ("retrieved_at", .str "2024-01-01T00:00:00Z")]) := by
  constructor
  · exact query_result_persistence.1 _ _ _ (by rfl) (by rfl)
  · exact query_result_persistence.2.2.2.2 _ _ (by rfl) (by rfl)

set_option maxRecDepth 10000 in
/-- C8 (counterexample to the claim as stated): a broker payload carrying
one extra key (`query_hash`, which live Redash does send) parses fine, but
the persisted JSON is the model's projection and no longer matches the raw
payload exactly. -/
theorem query_result_persistence_counterexample :
    executeResults (.obj [("query_result",
        .obj [("id", .num 789), ("query", .str "SELECT 1 AS col"),
          ("data", .obj [("columns", .arr [.obj [("name", .str "col"),
              ("type", .str "int"), ("friendly_name", .str "Col")]]),
            ("rows", .arr [.obj [("col", .num 0)]])]),
          ("data_source_id", .num 1), ("runtime", .num 0),
          ("retrieved_at", .str "2024-01-01T00:00:00Z"),
          ("query_hash", .str "abc123")])])
      = .sync ⟨789, "SELECT 1 AS col", [⟨"col", some "int", some "Col"⟩],
          [[("col", .num 0)]], 1, 0, "2024-01-01T00:00:00Z"⟩ ∧
    savedResultContent ⟨789, "SELECT 1 AS col", [⟨"col", some "int", some "Col"⟩],
        [[("col", .num 0)]], 1, 0, "2024-01-01T00:00:00Z"⟩
      ≠ dumps (.obj [("id", .num 789), ("query", .str "SELECT 1 AS col"),
          ("data", .obj [("columns", .arr [.obj [("name", .str "col"),
              ("type", .str "int"), ("friendly_name", .str "Col")]]),
            ("rows", .arr [.obj [("col", .num 0)]])]),
          ("data_source_id", .num 1), ("runtime", .num 0),
          ("retrieved_at", .str "2024-01-01T00:00:00Z"),
          ("query_hash", .str "abc123")]) := by
  refine ⟨by rfl, by decide⟩

/-! ### Platform GraphQL gateway (`stacklet/mcp/platform/graphql.py`) -/

/-- Python truthiness of a JSON value (`if raw_errors:` and the
`data or errors` validator). -/
def truthy : Json → Bool
  | .null => false
  | .bool b => b
  | .num n => n ≠ 0
  | .str s => s ≠ ""
  | .arr xs => xs ≠ []
  | .obj kvs => kvs ≠ []

/-- One GraphQL error entry (`platform/models.py` `GraphQLError`): a
required message plus optional locations (objects of integers), path
(strings or integers) and extensions. -/
structure GraphQLErrorM where
  message : String
  locations : Option (List (List (String × Int)))
  path : Option (List (String ⊕ Int))
  extensions : Option (List (String × Json))
  deriving DecidableEq

def parseLocation (j : Json) : Option (List (String × Int)) :=
  match j with
  | .obj kvs => kvs.mapM fun kv =>
      match kv.2 with
      | .num n => some (kv.1, n)
      | _ => none
  | _ => none

def parsePathItem (j : Json) : Option (String ⊕ Int) :=
  match j with
  | .str s => some (.inl s)
  | .num n => some (.inr n)
  | _ => none

/-- Pydantic validation of one raw error object into `GraphQLErrorM`
(extra keys ignored; absent or null optional fields become `None`). -/
def parseGraphQLError (j : Json) : Option GraphQLErrorM :=
  match j with
  | .obj _ =>
      match getKey j "message" with
      | some (.str m) =>
          let locs := match getKey j "locations" with
            | none => some none
            | some .null => some none
            | some (.arr ls) => (ls.mapM parseLocation).map some
            | some _ => none
          let path := match getKey j "path" with
            | none => some none
            | some .null => some none
            | some (.arr ps) => (ps.mapM parsePathItem).map some
            | some _ => none
          let exts := match getKey j "extensions" with
            | none => some none
            | some .null => some none
            | some (.obj kvs) => some (some kvs)
            | some _ => none
          match locs, path, exts with
          | some locs, some path, some exts => some ⟨m, locs, path, exts⟩
          | _, _, _ => none
      | _ => none
  | _ => none

/-- Structured query result (`platform/models.py` `GraphQLQueryResult`). -/
structure GraphQLQueryResultM where
  query : String
  vars : List (String × Json)
  data : Option (List (String × Json))
  errors : Option (List GraphQLErrorM)
  deriving DecidableEq

/-- Building a `GraphQLQueryResult` from the decoded response body
(graphql.py lines 74-85 plus the model validation in platform/models.py):
truthy `errors` must be a list of valid error objects, `data` must be a
dict or absent/null, and the validated result must carry truthy data or
errors; any failure is the `except` path. -/
def buildGraphQLResult (queryText : String) (vars : List (String × Json))
    (j : Json) : Option GraphQLQueryResultM :=
  match j with
  | .obj _ =>
      let rawErrors := (getKey j "errors").getD .null
      let errors : Option (Option (List GraphQLErrorM)) :=
        if truthy rawErrors then
          match rawErrors with
          | .arr es => (es.mapM parseGraphQLError).map some
          | _ => none
        else some none
      let data : Option (Option (List (String × Json))) :=
        match (getKey j "data").getD .null with
        | .null => some none
        | .obj kvs => some (some kvs)
        | _ => none
      match errors, data with
      | some errors, some data =>
          if truthy ((getKey j "data").getD .null) || errors.isSome then
            some ⟨queryText, vars, data, errors⟩
          else none
      | _, _ => none
  | _ => none

/-- An HTTP response as `PlatformClient.query` sees it: a status code and a
body text. -/
structure HttpResponse where
  status : Nat
  body : String
  deriving DecidableEq

/-- Embedding of `PlatformClient.query` (graphql.py lines 58-88): the body
is JSON-decoded and shaped into a `GraphQLQueryResult`; any failure in that
attempt raises `Unexpected response: {text}`. The HTTP status code is never
consulted. -/
def clientQuery (queryText : String) (vars : List (String × Json))
    (resp : HttpResponse) : Except String GraphQLQueryResultM :=
  match loads resp.body with
  | none => .error ("Unexpected response: " ++ resp.body)
  | some j =>
      match buildGraphQLResult queryText vars j with
      | some r => .ok r
      | none => .error ("Unexpected response: " ++ resp.body)

/-- C9: `PlatformClient.query` honors any response whose body parses as JSON
with a recognizable data/errors shape, returning the structured GraphQL
result whatever the HTTP status code; a body that fails to JSON-parse takes
the error path instead. -/
theorem platform_query_status_tolerance :
    (∀ (q : String) (vars : List (String × Json)) (status1 status2 : Nat) (body : String),
      clientQuery q vars ⟨status1, body⟩ = clientQuery q vars ⟨status2, body⟩) ∧
    (∀ (q : String) (vars : List (String × Json)) (status : Nat) (body : String)
      (j : Json) (r : GraphQLQueryResultM),
      loads body = some j → buildGraphQLResult q vars j = some r →
      clientQuery q vars ⟨status, body⟩ = .ok r) ∧
    (∀ (q : String) (vars : List (String × Json)) (status : Nat) (body : String),
      loads body = none →
      clientQuery q vars ⟨status, body⟩ = .error ("Unexpected response: " ++ body)) := by
  refine ⟨fun q vars s1 s2 body => rfl, fun q vars status body j r h1 h2 => ?_,
    fun q vars status body h1 => ?_⟩
  · rw [clientQuery]
    simp only [h1, h2]
  · rw [clientQuery]
    simp only [h1]

set_option maxRecDepth 4000 in
theorem platform_query_status_tolerance_witness :
    clientQuery "\x7b platform \x7b version \x7d \x7d" []
        ⟨500, "\x7b\"data\": \x7b\"platform\": \x7b\"version\": \"test-version\"\x7d\x7d\x7d"⟩
      = .ok ⟨"\x7b platform \x7b version \x7d \x7d", [],
          some [("platform", .obj [("version", .str "test-version")])], none⟩ ∧
    clientQuery "\x7b platform \x7b version \x7d \x7d" [] ⟨200, "invalid json content"⟩
      = .error "Unexpected response: invalid json content" := by
  constructor
  · exact platform_query_status_tolerance.2.1 _ _ 500 _ _ _ (by rfl) (by rfl)
  · exact platform_query_status_tolerance.2.2 _ _ 200 _ (by rfl)

/-! ### Mutation gate -/

/-- The operation types a GraphQL document can contain. -/
inductive OpType where
  | query | mutation
  deriving DecidableEq

/-- Modelled from the spec: `has_mutations` is absent from the source
snapshot (tests/test_tools_platform.py imports it from platform/graphql.py);
per spec section 4.5 it inspects the parsed document's operation types and
reports whether any operation is a mutation. A document is modelled as its
list of operation types. -/
def hasMutations (doc : List OpType) : Bool :=
  doc.any fun op => op == .mutation

/-- How a gated query call ends: refused by the mutation gate (a typed error
raised before any request), or executed against the endpoint, which answers
with optional GraphQL errors. -/
inductive GateOutcome where
  | mutationsDisabled : GateOutcome
  | completed (errors : Option (List GraphQLErrorM)) : GateOutcome
  deriving DecidableEq

/-- A gated call's outcome together with how many network requests it made. -/
structure GateTrace where
  outcome : GateOutcome
  networkCalls : Nat
  deriving DecidableEq

/-- Modelled from the spec: a client constructed with mutations disabled
(`Settings.platform_allow_mutations`, default false) inspects the document's
operation types and refuses, raising before any network call, when a
mutation operation is present; otherwise the query is posted and the
backend's answer (with its possible GraphQL errors) is returned. -/
def gatedQuery (allowMutations : Bool) (doc : List OpType)
    (responseErrors : Option (List GraphQLErrorM)) : GateTrace :=
  if !allowMutations && hasMutations doc then ⟨.mutationsDisabled, 0⟩
  else ⟨.completed responseErrors, 1⟩

/-- C7: with mutations disabled, a document containing a mutation operation
is refused before any network call, and the refusal is a distinct outcome
from every genuine GraphQL error; documents without mutations (or a client
allowing mutations) are executed. -/
theorem mutation_gate :
    (∀ (doc : List OpType) (responseErrors : Option (List GraphQLErrorM)),
      hasMutations doc = true →
      gatedQuery false doc responseErrors = ⟨.mutationsDisabled, 0⟩) ∧
    (∀ doc : List OpType, hasMutations doc = true ↔ .mutation ∈ doc) ∧
    (∀ errors : Option (List GraphQLErrorM),
      GateOutcome.mutationsDisabled ≠ GateOutcome.completed errors) ∧
    (∀ (doc : List OpType) (responseErrors : Option (List GraphQLErrorM)),
      hasMutations doc = false →
      gatedQuery false doc responseErrors = ⟨.completed responseErrors, 1⟩) ∧
    (∀ (doc : List OpType) (responseErrors : Option (List GraphQLErrorM)),
      gatedQuery true doc responseErrors = ⟨.completed responseErrors, 1⟩) := by
  refine ⟨fun doc re h => ?_, fun doc => ?_, fun errors h => ?_, fun doc re h => ?_,
    fun doc re => ?_⟩
  · rw [gatedQuery, if_pos (by simp [h])]
  · constructor
    · intro h
      rw [hasMutations] at h
      obtain ⟨op, hop, heq⟩ := List.any_eq_true.mp h
      cases op
      · cases heq
      · exact hop
    · intro h
      rw [hasMutations]
      exact List.any_eq_true.mpr ⟨.mutation, h, rfl⟩
  · cases h
  · rw [gatedQuery, if_neg (by simp [h])]
  · rw [gatedQuery, if_neg (by simp)]

theorem mutation_gate_witness :
    gatedQuery false [.query, .mutation] none = ⟨.mutationsDisabled, 0⟩ ∧
    gatedQuery false [.query] none = ⟨.completed none, 1⟩ :=
  ⟨mutation_gate.1 [.query, .mutation] none (by decide),
   mutation_gate.2.2.2.1 [.query] none (by decide)⟩
